import Mathlib

/-
Verification development for the gobuildcache repository: a GOCACHEPROG
protocol server (server.go) over pluggable cache backends, with a local
disk store (localcache), a per-key locking group, and a debug decorator.

The Go code is shallowly embedded: stdin is a list of lines, the
filesystem is an association list from paths to contents, machine
integers are Int/Nat, and fallible operations return Except/Option.
-/

namespace GoBuildCache

/-! ### Character and string utilities (Go strings.TrimSpace / Split / HasPrefix) -/

/-- Whitespace as recognized by Go unicode.IsSpace on ASCII input. -/
def isSpaceChar (c : Char) : Bool :=
  c.toNat == 32 || c.toNat == 9 || c.toNat == 10 || c.toNat == 13 ||
  c.toNat == 11 || c.toNat == 12

/-- strings.TrimSpace on a character list. -/
def trimSpace (cs : List Char) : List Char :=
  ((cs.dropWhile isSpaceChar).reverse.dropWhile isSpaceChar).reverse

theorem isSpaceChar_eq_false_of_ge (c : Char) (h : 48 ≤ c.toNat) :
    isSpaceChar c = false := by
  simp only [isSpaceChar, Bool.or_eq_false_iff, beq_eq_false_iff_ne, ne_eq]
  omega

theorem dropWhile_eq_self_of_all {α : Type} (p : α → Bool) (l : List α)
    (h : ∀ c ∈ l, p c = false) : l.dropWhile p = l := by
  cases l with
  | nil => rfl
  | cons c t =>
    rw [List.dropWhile_cons_of_neg]
    simp [h c (List.mem_cons_self c t)]

theorem takeWhile_eq_self_of_all {α : Type} (p : α → Bool) (l : List α)
    (h : ∀ c ∈ l, p c = true) : l.takeWhile p = l := by
  induction l with
  | nil => rfl
  | cons c t ih =>
    rw [List.takeWhile_cons_of_pos (by simp [h c (List.mem_cons_self c t)])]
    rw [ih (fun x hx => h x (List.mem_cons_of_mem c hx))]

/-- strings.Split(s, "\n") on a character list. -/
def splitNl : List Char → List (List Char)
  | [] => [[]]
  | c :: rest =>
    if c = '\n' then [] :: splitNl rest
    else
      match splitNl rest with
      | [] => [[c]]
      | l :: ls => (c :: l) :: ls

theorem splitNl_append_cons (a b : List Char) (h : '\n' ∉ a) :
    splitNl (a ++ '\n' :: b) = a :: splitNl b := by
  induction a with
  | nil => simp [splitNl]
  | cons c cs ih =>
    have hc : c ≠ '\n' := fun hcn => h (hcn ▸ List.mem_cons_self c cs)
    have hcs : '\n' ∉ cs := fun hm => h (List.mem_cons_of_mem c hm)
    simp only [List.cons_append, splitNl, if_neg hc, List.append_eq]
    rw [ih hcs]

theorem trimSpace_eq_self (cs : List Char) (h : ∀ c ∈ cs, isSpaceChar c = false) :
    trimSpace cs = cs := by
  unfold trimSpace
  rw [dropWhile_eq_self_of_all _ _ h]
  rw [dropWhile_eq_self_of_all _ _ (fun c hc => h c (List.mem_reverse.mp hc))]
  exact List.reverse_reverse cs

/-! ### Decimal digits: fmt.Sprintf %d and fmt.Sscanf %d -/

def digitChar (n : Nat) : Char := Char.ofNat (48 + n)

def isDigitChar (c : Char) : Bool := 48 ≤ c.toNat && c.toNat ≤ 57

def digitVal (c : Char) : Nat := c.toNat - 48

/-- Decimal digit string of a natural, as produced by fmt's %d verb. -/
def natToDigits (n : Nat) : List Char :=
  if n < 10 then [digitChar n]
  else natToDigits (n / 10) ++ [digitChar (n % 10)]
termination_by n
decreasing_by exact Nat.div_lt_self (by omega) (by omega)

/-- Decimal rendering of an Int, as produced by fmt's %d verb. -/
def intDigits (i : Int) : List Char :=
  if i < 0 then '-' :: natToDigits (-i).toNat else natToDigits i.toNat

def intToDec (i : Int) : String := String.mk (intDigits i)

/-- Parse a nonempty all-digit character list as a natural number. -/
def parseNatDigits (cs : List Char) : Option Nat :=
  if cs.isEmpty then none
  else if cs.all isDigitChar then
    some (cs.foldl (fun a c => a * 10 + digitVal c) 0)
  else none

/-- The %s verb of fmt.Sscanf: skip leading spaces, take the maximal
nonempty run of non-space characters. -/
def scanString (cs : List Char) : Option (List Char) :=
  if ((cs.dropWhile isSpaceChar).takeWhile (fun c => !isSpaceChar c)).isEmpty then none
  else some ((cs.dropWhile isSpaceChar).takeWhile (fun c => !isSpaceChar c))

/-- Take the maximal leading digit run and parse it. -/
def parseLeadingDigits (cs : List Char) : Option Nat :=
  parseNatDigits (cs.takeWhile isDigitChar)

/-- Sign handling of the %d verb after space skipping. -/
def scanIntTok : List Char → Option Int
  | [] => none
  | c :: rest =>
    if c = '-' then (parseLeadingDigits rest).map (fun n => -(Int.ofNat n))
    else if c = '+' then (parseLeadingDigits rest).map Int.ofNat
    else (parseLeadingDigits (c :: rest)).map Int.ofNat

/-- The %d verb of fmt.Sscanf: skip spaces, optional sign, digits. -/
def scanInt (cs : List Char) : Option Int :=
  scanIntTok (cs.dropWhile isSpaceChar)

theorem isDigitChar_digitChar (n : Nat) (h : n < 10) : isDigitChar (digitChar n) = true := by
  interval_cases n <;> decide

theorem digitVal_digitChar (n : Nat) (h : n < 10) : digitVal (digitChar n) = n := by
  interval_cases n <;> decide

theorem natToDigits_ne_nil (n : Nat) : natToDigits n ≠ [] := by
  rw [natToDigits]
  split <;> simp

theorem natToDigits_all_digits (n : Nat) : ∀ c ∈ natToDigits n, isDigitChar c = true := by
  induction n using Nat.strong_induction_on with
  | _ n ih =>
    rw [natToDigits]
    split
    · intro c hc
      rw [List.mem_singleton] at hc
      exact hc ▸ isDigitChar_digitChar n (by omega)
    · intro c hc
      rcases List.mem_append.mp hc with h1 | h2
      · exact ih (n / 10) (Nat.div_lt_self (by omega) (by omega)) c h1
      · rw [List.mem_singleton] at h2
        exact h2 ▸ isDigitChar_digitChar (n % 10) (Nat.mod_lt n (by omega))

theorem parseNatDigits_natToDigits (n : Nat) : parseNatDigits (natToDigits n) = some n := by
  induction n using Nat.strong_induction_on with
  | _ n ih =>
    by_cases h : n < 10
    · rw [natToDigits, if_pos h]
      simp [parseNatDigits, isDigitChar_digitChar n h, digitVal_digitChar n h]
    · rw [natToDigits, if_neg h]
      have ihd := ih (n / 10) (Nat.div_lt_self (by omega) (by omega))
      have hne := natToDigits_ne_nil (n / 10)
      have hall := natToDigits_all_digits (n / 10)
      have hfold : (natToDigits (n / 10)).foldl (fun a c => a * 10 + digitVal c) 0 = n / 10 := by
        unfold parseNatDigits at ihd
        rw [if_neg (by simpa using hne), if_pos (by simpa [List.all_eq_true] using hall)] at ihd
        exact Option.some.inj ihd
      unfold parseNatDigits
      rw [if_neg (by simp), if_pos]
      · rw [List.foldl_append, hfold]
        simp only [List.foldl_cons, List.foldl_nil, Option.some.injEq]
        rw [digitVal_digitChar (n % 10) (Nat.mod_lt n (by omega))]
        omega
      · simp only [List.all_append, Bool.and_eq_true, List.all_eq_true]
        refine ⟨hall, ?_⟩
        intro c hc
        rw [List.mem_singleton] at hc
        exact hc ▸ isDigitChar_digitChar (n % 10) (Nat.mod_lt n (by omega))

theorem natToDigits_not_space (n : Nat) : ∀ c ∈ natToDigits n, isSpaceChar c = false := by
  intro c hc
  have hd := natToDigits_all_digits n c hc
  simp only [isDigitChar, Bool.and_eq_true, decide_eq_true_eq] at hd
  exact isSpaceChar_eq_false_of_ge c hd.1

theorem parseLeadingDigits_natToDigits (n : Nat) :
    parseLeadingDigits (natToDigits n) = some n := by
  unfold parseLeadingDigits
  rw [List.takeWhile_eq_self_iff.mpr (natToDigits_all_digits n)]
  exact parseNatDigits_natToDigits n

theorem natToDigits_head_digit (n : Nat) :
    ∃ c t, natToDigits n = c :: t ∧ isDigitChar c = true := by
  rcases hne : natToDigits n with _ | ⟨c, t⟩
  · exact absurd hne (natToDigits_ne_nil n)
  · exact ⟨c, t, rfl, natToDigits_all_digits n c (hne ▸ List.mem_cons_self c t)⟩

/-- Round trip: fmt.Sscanf %d recovers what fmt.Sprintf %d printed. -/
theorem scanInt_intDigits (i : Int) : scanInt (intDigits i) = some i := by
  unfold intDigits
  split
  · rename_i hneg
    unfold scanInt
    have hds : isSpaceChar '-' = false := by decide
    rw [List.dropWhile_cons_of_neg (by simp [hds])]
    simp only [scanIntTok, if_true, parseLeadingDigits_natToDigits, reduceIte,
      Option.map_some', Option.some.injEq]
    simp only [Int.ofNat_eq_natCast]
    omega
  · rename_i hpos
    obtain ⟨c, t, heq, hdig⟩ := natToDigits_head_digit i.toNat
    unfold scanInt
    rw [heq]
    have hcs : isSpaceChar c = false :=
      natToDigits_not_space i.toNat c (heq ▸ List.mem_cons_self c t)
    simp only [isDigitChar, Bool.and_eq_true, decide_eq_true_eq] at hdig
    have hm45 : ('-').toNat = 45 := rfl
    have hm43 : ('+').toNat = 43 := rfl
    have hcm : c ≠ '-' := fun he => by rw [he, hm45] at hdig; omega
    have hcp : c ≠ '+' := fun he => by rw [he, hm43] at hdig; omega
    rw [List.dropWhile_cons_of_neg (by simp [hcs])]
    simp only [scanIntTok]
    rw [if_neg hcm, if_neg hcp]
    rw [← heq, parseLeadingDigits_natToDigits, Option.map_some', Option.some.injEq]
    simp only [Int.ofNat_eq_natCast]
    omega

/-! ### Hex encoding (encoding/hex) -/

def toHexDigit (n : Nat) : Char :=
  if n < 10 then Char.ofNat (48 + n) else Char.ofNat (87 + n)

def fromHexDigit (c : Char) : Option Nat :=
  if 48 ≤ c.toNat ∧ c.toNat ≤ 57 then some (c.toNat - 48)
  else if 97 ≤ c.toNat ∧ c.toNat ≤ 102 then some (c.toNat - 87)
  else if 65 ≤ c.toNat ∧ c.toNat ≤ 70 then some (c.toNat - 55)
  else none

/-- hex.EncodeToString over a byte list: two lowercase hex digits per byte. -/
def hexEncodeBytes (bs : List Nat) : List Char :=
  bs.flatMap (fun b => [toHexDigit (b / 16), toHexDigit (b % 16)])

/-- hex.DecodeString: fails on odd length or a non-hex character. -/
def hexDecode : List Char → Option (List Nat)
  | [] => some []
  | [_] => none
  | c1 :: c2 :: rest => do
    let h ← fromHexDigit c1
    let l ← fromHexDigit c2
    let bs ← hexDecode rest
    pure ((h * 16 + l) :: bs)

theorem fromHexDigit_toHexDigit (n : Nat) (h : n < 16) :
    fromHexDigit (toHexDigit n) = some n := by
  interval_cases n <;> decide

theorem hexDecode_hexEncodeBytes (bs : List Nat) (h : ∀ b ∈ bs, b < 256) :
    hexDecode (hexEncodeBytes bs) = some bs := by
  induction bs with
  | nil => rfl
  | cons b t ih =>
    have hb : b < 256 := h b (List.mem_cons_self b t)
    have ht : ∀ x ∈ t, x < 256 := fun x hx => h x (List.mem_cons_of_mem b hx)
    simp only [hexEncodeBytes, List.flatMap_cons, List.cons_append, List.nil_append]
    show hexDecode (toHexDigit (b / 16) :: toHexDigit (b % 16) :: hexEncodeBytes t) = _
    unfold hexDecode
    rw [fromHexDigit_toHexDigit (b / 16) (by omega),
        fromHexDigit_toHexDigit (b % 16) (by omega)]
    simp only [Option.bind_eq_bind, Option.some_bind]
    rw [ih ht]
    simp only [Option.some_bind]
    congr 2
    omega

theorem toHexDigit_is_hex (n : Nat) (h : n < 16) :
    isSpaceChar (toHexDigit n) = false ∧ toHexDigit n ≠ '\n' ∧
    (fromHexDigit (toHexDigit n)).isSome = true := by
  interval_cases n <;> decide

theorem hexEncodeBytes_not_space (bs : List Nat) (h : ∀ b ∈ bs, b < 256) :
    ∀ c ∈ hexEncodeBytes bs, isSpaceChar c = false := by
  intro c hc
  simp only [hexEncodeBytes, List.mem_flatMap, List.mem_cons, List.mem_singleton,
    List.not_mem_nil, or_false] at hc
  obtain ⟨b, hb, hcb⟩ := hc
  have hb256 := h b hb
  rcases hcb with h1 | h1
  · exact h1 ▸ (toHexDigit_is_hex (b / 16) (by omega)).1
  · exact h1 ▸ (toHexDigit_is_hex (b % 16) (by omega)).1

theorem hexEncodeBytes_no_newline (bs : List Nat) (h : ∀ b ∈ bs, b < 256) :
    '\n' ∉ hexEncodeBytes bs := by
  intro hc
  simp only [hexEncodeBytes, List.mem_flatMap, List.mem_cons, List.mem_singleton,
    List.not_mem_nil, or_false] at hc
  obtain ⟨b, hb, hcb⟩ := hc
  have hb256 := h b hb
  rcases hcb with h1 | h1
  · exact (toHexDigit_is_hex (b / 16) (by omega)).2.1 h1.symm
  · exact (toHexDigit_is_hex (b % 16) (by omega)).2.1 h1.symm

/-! ### Base64 (encoding/base64 StdEncoding) -/

/-- Value of one character of the standard base64 alphabet. -/
def b64Val (c : Char) : Option Nat :=
  if 65 ≤ c.toNat ∧ c.toNat ≤ 90 then some (c.toNat - 65)
  else if 97 ≤ c.toNat ∧ c.toNat ≤ 122 then some (c.toNat - 71)
  else if 48 ≤ c.toNat ∧ c.toNat ≤ 57 then some (c.toNat + 4)
  else if c.toNat = 43 then some 62
  else if c.toNat = 47 then some 63
  else none

/-- base64.StdEncoding.DecodeString: groups of four characters, padding
only in the final group. (Go also skips CR and LF inside the input;
the inputs modelled here contain neither.) -/
def base64Decode : List Char → Option (List Nat)
  | [] => some []
  | c1 :: c2 :: c3 :: c4 :: rest =>
    match b64Val c1, b64Val c2 with
    | some v1, some v2 =>
      if c3 = '=' then
        if c4 = '=' ∧ rest = [] then some [v1 * 4 + v2 / 16] else none
      else
        match b64Val c3 with
        | some v3 =>
          if c4 = '=' then
            if rest = [] then some [v1 * 4 + v2 / 16, (v2 % 16) * 16 + v3 / 4] else none
          else
            match b64Val c4, base64Decode rest with
            | some v4, some bs =>
              some ((v1 * 4 + v2 / 16) :: ((v2 % 16) * 16 + v3 / 4) :: ((v3 % 4) * 64 + v4) :: bs)
            | _, _ => none
        | none => none
    | _, _ => none
  | _ => none

/-- One character of the standard base64 alphabet. -/
def b64Chr (n : Nat) : Char :=
  if n < 26 then Char.ofNat (65 + n)
  else if n < 52 then Char.ofNat (71 + n)
  else if n < 62 then Char.ofNat (n - 4)
  else if n = 62 then Char.ofNat 43
  else Char.ofNat 47

/-- base64.StdEncoding.EncodeToString over a byte list. -/
def base64Encode : List Nat → List Char
  | [] => []
  | [b1] => [b64Chr (b1 / 4), b64Chr (b1 % 4 * 16), '=', '=']
  | [b1, b2] => [b64Chr (b1 / 4), b64Chr (b1 % 4 * 16 + b2 / 16), b64Chr (b2 % 16 * 4), '=']
  | b1 :: b2 :: b3 :: rest =>
    b64Chr (b1 / 4) :: b64Chr (b1 % 4 * 16 + b2 / 16) ::
    b64Chr (b2 % 16 * 4 + b3 / 64) :: b64Chr (b3 % 64) :: base64Encode rest

/-! ### JSON (encoding/json, restricted to the integer numerals and
escape-free strings that the GOCACHEPROG envelope uses) -/

inductive Json where
  | null : Json
  | bool (b : Bool) : Json
  | num (n : Int) : Json
  | str (s : String) : Json
  | arr (xs : List Json) : Json
  | obj (fields : List (String × Json)) : Json

def isWsChar (c : Char) : Bool :=
  c.toNat == 32 || c.toNat == 9 || c.toNat == 10 || c.toNat == 13

def skipWs (cs : List Char) : List Char := cs.dropWhile isWsChar

/-- Parse the remainder of a JSON string literal after the opening quote.
Common escapes are supported; \u escapes are not (the protocol's strings
never contain them), and a raw control character is an error as in Go. -/
def parseStrRest : List Char → Option (String × List Char)
  | [] => none
  | c :: rest =>
    if c = '"' then some ("", rest)
    else if c = '\\' then
      match rest with
      | [] => none
      | e :: rest2 =>
        let dec : Option Char :=
          if e = '"' then some '"'
          else if e = '\\' then some '\\'
          else if e = '/' then some '/'
          else if e = 'n' then some '\n'
          else if e = 't' then some '\t'
          else if e = 'r' then some '\r'
          else if e = 'b' then some (Char.ofNat 8)
          else if e = 'f' then some (Char.ofNat 12)
          else none
        match dec with
        | none => none
        | some d =>
          match parseStrRest rest2 with
          | some (s, rem) => some (String.mk (d :: s.data), rem)
          | none => none
    else if c.toNat < 32 then none
    else
      match parseStrRest rest with
      | some (s, rem) => some (String.mk (c :: s.data), rem)
      | none => none

/-- Parse a JSON integer numeral. A fraction or exponent makes the whole
parse fail (the envelope's numeric fields are int64, where Go rejects
non-integer numerals anyway). -/
def parseNum (cs : List Char) : Option (Int × List Char) :=
  let (neg, cs1) : Bool × List Char :=
    match cs with
    | c :: rest => if c = '-' then (true, rest) else (false, cs)
    | [] => (false, [])
  let digits := cs1.takeWhile isDigitChar
  let rest := cs1.drop digits.length
  match parseNatDigits digits with
  | none => none
  | some n =>
    match rest with
    | c :: _ => if c = '.' ∨ c = 'e' ∨ c = 'E' then none
                else some (if neg then -(Int.ofNat n) else Int.ofNat n, rest)
    | [] => some (if neg then -(Int.ofNat n) else Int.ofNat n, rest)

mutual

def parseValue : Nat → List Char → Option (Json × List Char)
  | 0, _ => none
  | fuel + 1, cs =>
    match skipWs cs with
    | [] => none
    | c :: rest =>
      if c = 'n' then
        if "ull".data.isPrefixOf rest then some (.null, rest.drop 3) else none
      else if c = 't' then
        if "rue".data.isPrefixOf rest then some (.bool true, rest.drop 3) else none
      else if c = 'f' then
        if "alse".data.isPrefixOf rest then some (.bool false, rest.drop 4) else none
      else if c = '"' then
        match parseStrRest rest with
        | some (s, rem) => some (.str s, rem)
        | none => none
      else if c = '[' then
        match skipWs rest with
        | ']' :: rem => some (.arr [], rem)
        | _ =>
          match parseArrayItems fuel rest with
          | some (xs, rem) => some (.arr xs, rem)
          | none => none
      else if c = '\x7b' then
        match skipWs rest with
        | '\x7d' :: rem => some (.obj [], rem)
        | _ =>
          match parseObjItems fuel rest with
          | some (fs, rem) => some (.obj fs, rem)
          | none => none
      else
        match parseNum (c :: rest) with
        | some (n, rem) => some (.num n, rem)
        | none => none

def parseArrayItems : Nat → List Char → Option (List Json × List Char)
  | 0, _ => none
  | fuel + 1, cs =>
    match parseValue fuel cs with
    | none => none
    | some (v, rem) =>
      match skipWs rem with
      | ',' :: rem2 =>
        match parseArrayItems fuel rem2 with
        | some (xs, rem3) => some (v :: xs, rem3)
        | none => none
      | ']' :: rem2 => some ([v], rem2)
      | _ => none

def parseObjItems : Nat → List Char → Option (List (String × Json) × List Char)
  | 0, _ => none
  | fuel + 1, cs =>
    match skipWs cs with
    | '"' :: rest =>
      match parseStrRest rest with
      | none => none
      | some (k, rem) =>
        match skipWs rem with
        | ':' :: rem2 =>
          match parseValue fuel rem2 with
          | none => none
          | some (v, rem3) =>
            match skipWs rem3 with
            | ',' :: rem4 =>
              match parseObjItems fuel rem4 with
              | some (fs, rem5) => some ((k, v) :: fs, rem5)
              | none => none
            | '\x7d' :: rem4 => some ([(k, v)], rem4)
            | _ => none
        | _ => none
    | _ => none

end

/-- json.Unmarshal's top-level entry: parse one JSON value and require
only trailing whitespace after it. -/
def jsonParse (s : String) : Option Json :=
  match parseValue (s.data.length * 2 + 4) s.data with
  | some (v, rest) => if (skipWs rest).isEmpty then some v else none
  | none => none

instance {e a : Type} [DecidableEq e] [DecidableEq a] : DecidableEq (Except e a) := fun x y =>
  match x, y with
  | .error u, .error v =>
    if h : u = v then .isTrue (by rw [h]) else .isFalse (fun he => h (Except.error.inj he))
  | .ok u, .ok v =>
    if h : u = v then .isTrue (by rw [h]) else .isFalse (fun he => h (Except.ok.inj he))
  | .error _, .ok _ => .isFalse (fun he => Except.noConfusion he)
  | .ok _, .error _ => .isFalse (fun he => Except.noConfusion he)

/-! ### Request unmarshalling (server.go: Request, json.Unmarshal) -/

/-- Request from the go command (server.go). Body holds the decoded
bytes behind the io.Reader; BodySize is the declared size. -/
structure Request where
  ID : Int := 0
  Command : String := ""
  ActionID : List Nat := []
  OutputID : List Nat := []
  Body : List Nat := []
  BodySize : Int := 0
deriving DecidableEq

/-- Assign one JSON object field into a Request, as json.Unmarshal does:
later duplicates win, null is a no-op, unknown keys are ignored,
[]byte fields decode from base64 strings. -/
def applyRequestField (r : Request) (kv : String × Json) : Except String Request :=
  if kv.1 = "ID" then
    match kv.2 with
    | .num n => .ok { r with ID := n }
    | .null => .ok r
    | _ => .error "cannot unmarshal into ID"
  else if kv.1 = "Command" then
    match kv.2 with
    | .str s => .ok { r with Command := s }
    | .null => .ok r
    | _ => .error "cannot unmarshal into Command"
  else if kv.1 = "ActionID" then
    match kv.2 with
    | .str s =>
      match base64Decode s.data with
      | some bs => .ok { r with ActionID := bs }
      | none => .error "illegal base64 data in ActionID"
    | .null => .ok r
    | _ => .error "cannot unmarshal into ActionID"
  else if kv.1 = "OutputID" then
    match kv.2 with
    | .str s =>
      match base64Decode s.data with
      | some bs => .ok { r with OutputID := bs }
      | none => .error "illegal base64 data in OutputID"
    | .null => .ok r
    | _ => .error "cannot unmarshal into OutputID"
  else if kv.1 = "BodySize" then
    match kv.2 with
    | .num n => .ok { r with BodySize := n }
    | .null => .ok r
    | _ => .error "cannot unmarshal into BodySize"
  else if kv.1 = "Body" then
    match kv.2 with
    | .null => .ok r
    | _ => .error "cannot unmarshal into Body of type io.Reader"
  else .ok r

/-- json.Unmarshal of a request line into a Request. -/
def unmarshalRequest (line : String) : Except String Request :=
  match jsonParse line with
  | none => .error "invalid JSON"
  | some (.obj fields) => fields.foldlM applyRequestField {}
  | some _ => .error "cannot unmarshal non-object into Request"

/-! ### Response marshalling (server.go: Response, json.Marshal) -/

/-- Response to the go command (server.go). Time is the unix second of
the pointed-to time.Time, none for a nil pointer. -/
structure Response where
  ID : Int := 0
  Err : String := ""
  KnownCommands : List String := []
  Miss : Bool := false
  OutputID : List Nat := []
  Size : Int := 0
  Time : Option Int := none
  DiskPath : String := ""
deriving DecidableEq

/-- Escape one character as encoding/json does (HTML escaping included). -/
def escapeChar (c : Char) : List Char :=
  if c = '"' then ['\\', '"']
  else if c = '\\' then ['\\', '\\']
  else if c = '\n' then ['\\', 'n']
  else if c = '\r' then ['\\', 'r']
  else if c = '\t' then ['\\', 't']
  else if c.toNat = 60 then ['\\', 'u', '0', '0', '3', 'c']
  else if c.toNat = 62 then ['\\', 'u', '0', '0', '3', 'e']
  else if c.toNat = 38 then ['\\', 'u', '0', '0', '2', '6']
  else if c.toNat < 32 then
    ['\\', 'u', '0', '0', toHexDigit (c.toNat / 16), toHexDigit (c.toNat % 16)]
  else if c.toNat = 8232 then ['\\', 'u', '2', '0', '2', '8']
  else if c.toNat = 8233 then ['\\', 'u', '2', '0', '2', '9']
  else [c]

def jsonQuote (s : String) : String :=
  "\"" ++ String.mk (s.data.flatMap escapeChar) ++ "\""

/-- The %q verb of fmt, for the error messages of ReadRequest. -/
def goQuoteChar (c : Char) : List Char :=
  if c = '"' then ['\\', '"']
  else if c = '\\' then ['\\', '\\']
  else if c = '\n' then ['\\', 'n']
  else if c = '\r' then ['\\', 'r']
  else if c = '\t' then ['\\', 't']
  else if c.toNat < 32 then ['\\', 'x', toHexDigit (c.toNat / 16), toHexDigit (c.toNat % 16)]
  else [c]

def goQuote (s : String) : String :=
  "\"" ++ String.mk (s.data.flatMap goQuoteChar) ++ "\""

def pad2 (n : Nat) : String :=
  if n < 10 then "0" ++ String.mk (natToDigits n) else String.mk (natToDigits n)

def pad4 (n : Nat) : String :=
  if n < 10 then "000" ++ String.mk (natToDigits n)
  else if n < 100 then "00" ++ String.mk (natToDigits n)
  else if n < 1000 then "0" ++ String.mk (natToDigits n)
  else String.mk (natToDigits n)

/-- Gregorian civil date from days since the unix epoch. -/
def civilFromDays (z0 : Int) : Int × Nat × Nat :=
  let z := z0 + 719468
  let era := z.fdiv 146097
  let doe := (z - era * 146097).toNat
  let yoe := (doe - doe / 1460 + doe / 36524 - doe / 146096) / 365
  let y := (yoe : Int) + era * 400
  let doy := doe - (365 * yoe + yoe / 4 - yoe / 100)
  let mp := (5 * doy + 2) / 153
  let d := doy - (153 * mp + 2) / 5 + 1
  let m := if mp < 10 then mp + 3 else mp - 9
  (if m ≤ 2 then y + 1 else y, m, d)

/-- RFC3339 rendering of a whole-second UTC time.Time, as its json
marshalling produces. -/
def timeToRFC3339 (t : Int) : String :=
  let days := t.fdiv 86400
  let secs := (t - days * 86400).toNat
  let ymd := civilFromDays days
  let yStr := if ymd.1 < 0 then "-" ++ pad4 (-ymd.1).toNat else pad4 ymd.1.toNat
  yStr ++ "-" ++ pad2 ymd.2.1 ++ "-" ++ pad2 ymd.2.2 ++ "T" ++
    pad2 (secs / 3600) ++ ":" ++ pad2 (secs % 3600 / 60) ++ ":" ++ pad2 (secs % 60) ++ "Z"

/-- json.Marshal of a Response: fields in declaration order, each tagged
omitempty, so zero values are omitted. -/
def marshalResponse (r : Response) : String :=
  let fields : List String :=
    (if r.ID == 0 then [] else ["\"ID\":" ++ intToDec r.ID]) ++
    (if r.Err == "" then [] else ["\"Err\":" ++ jsonQuote r.Err]) ++
    (if r.KnownCommands.isEmpty then [] else
      ["\"KnownCommands\":[" ++ String.intercalate "," (r.KnownCommands.map jsonQuote) ++ "]"]) ++
    (if r.Miss then ["\"Miss\":true"] else []) ++
    (if r.OutputID.isEmpty then [] else
      ["\"OutputID\":" ++ jsonQuote (String.mk (base64Encode r.OutputID))]) ++
    (if r.Size == 0 then [] else ["\"Size\":" ++ intToDec r.Size]) ++
    (match r.Time with
     | some t => ["\"Time\":" ++ jsonQuote (timeToRFC3339 t)]
     | none => []) ++
    (if r.DiskPath == "" then [] else ["\"DiskPath\":" ++ jsonQuote r.DiskPath])
  "\x7b" ++ String.intercalate "," fields ++ "\x7d"

/-! ### Protocol engine (server.go: CacheProg) -/

/-- The six return values of CacheBackend.Get. -/
structure GetReturn where
  outputID : List Nat := []
  diskPath : String := ""
  size : Int := 0
  putTime : Option Int := none
  miss : Bool := false
  err : Option String := none

/-- The CacheBackend interface, with each method's Go return values. -/
structure Backend where
  put : List Nat → List Nat → List Nat → Int → String × Option String
  get : List Nat → GetReturn
  close : Option String
  clear : Option String

/-- CacheProg.HandleRequest without the send: the Response it builds.
(SendResponse cannot fail in this model: json.Marshal of a Response
never errors and the output writer is not modelled as failing.) -/
def handleRequest (b : Backend) (req : Request) : Response :=
  if req.Command = "put" then
    match b.put req.ActionID req.OutputID req.Body req.BodySize with
    | (diskPath, none) => { ID := req.ID, DiskPath := diskPath }
    | (_, some e) => { ID := req.ID, Err := e }
  else if req.Command = "get" then
    match (b.get req.ActionID).err with
    | some e => { ID := req.ID, Err := e }
    | none =>
      if (b.get req.ActionID).miss then { ID := req.ID, Miss := true }
      else { ID := req.ID, Miss := false, OutputID := (b.get req.ActionID).outputID,
             DiskPath := (b.get req.ActionID).diskPath, Size := (b.get req.ActionID).size,
             Time := (b.get req.ActionID).putTime }
  else if req.Command = "close" then
    match b.close with
    | some e => { ID := req.ID, Err := e }
    | none => { ID := req.ID }
  else { ID := req.ID, Err := "unknown command: " ++ req.Command }

def lineIsBlank (l : String) : Bool := (trimSpace l.data).isEmpty

/-- The scan loops of ReadRequest skip lines that are blank after TrimSpace. -/
def skipBlanks (lines : List String) : List String := lines.dropWhile lineIsBlank

/-- Outcome of CacheProg.ReadRequest: end of stream, an error, or a request. -/
inductive ReadResult where
  | eof : ReadResult
  | fail (msg : String) : ReadResult
  | ok (req : Request) : ReadResult
deriving DecidableEq

/-- CacheProg.ReadRequest over the remaining input lines; also returns
the lines left unconsumed. Running out of lines is EOF (the scanner's
separate I/O-error path has no counterpart in a pure line list). -/
def readRequest (lines : List String) : ReadResult × List String :=
  match skipBlanks lines with
  | [] => (.eof, [])
  | line :: rest =>
    match unmarshalRequest line with
    | .error e =>
      (.fail ("failed to unmarshal request: " ++ e ++ " (line: " ++ goQuote line ++ ")"), rest)
    | .ok req =>
      if req.Command = "put" ∧ req.BodySize > 0 then
        match skipBlanks rest with
        | [] => (.eof, [])
        | bodyLine :: rest2 =>
          match jsonParse bodyLine with
          | some (.str s) =>
            match base64Decode s.data with
            | some bodyData => (.ok { req with Body := bodyData }, rest2)
            | none => (.fail "failed to decode base64 body", rest2)
          | some .null => (.ok { req with Body := [] }, rest2)
          | some _ =>
            (.fail ("failed to unmarshal body as JSON string (line: " ++
              goQuote bodyLine ++ ")"), rest2)
          | none =>
            (.fail ("failed to unmarshal body as JSON string (line: " ++
              goQuote bodyLine ++ ")"), rest2)
      else (.ok req, rest)

theorem skipBlanks_length_le (lines : List String) :
    (skipBlanks lines).length ≤ lines.length :=
  (List.dropWhile_sublist _).length_le

theorem readRequest_ok_length (lines : List String) (req : Request) (rest : List String)
    (h : readRequest lines = (.ok req, rest)) : rest.length < lines.length := by
  unfold readRequest at h
  split at h
  · simp at h
  · rename_i line rest1 hsb
    have h1 : rest1.length < lines.length := by
      have := skipBlanks_length_le lines
      rw [hsb] at this
      simp only [List.length_cons] at this
      omega
    split at h
    · simp at h
    · split at h
      · split at h
        · simp at h
        · rename_i rest0 bodyLine rest2 hsb2
          have h2 : rest2.length ≤ rest1.length := by
            have := skipBlanks_length_le rest1
            rw [hsb2] at this
            simp only [List.length_cons] at this
            omega
          split at h
          · split at h
            · simp only [Prod.mk.injEq] at h
              rcases h with ⟨h3, h4⟩
              subst h4
              omega
            · simp at h
          · simp only [Prod.mk.injEq] at h
            rcases h with ⟨h3, h4⟩
            subst h4
            omega
          · simp at h
          · simp at h
      · simp only [Prod.mk.injEq] at h
        rcases h with ⟨h3, h4⟩
        subst h4
        omega

/-- CacheProg.Run's request loop: read, handle, send, until EOF or close;
returns the loop outcome and the Responses sent, in order. -/
def runLoop (b : Backend) (lines : List String) : Except String Unit × List Response :=
  match h : readRequest lines with
  | (.eof, _) => (.ok (), [])
  | (.fail e, _) => (.error ("failed to read request: " ++ e), [])
  | (.ok req, rest) =>
    let resp := handleRequest b req
    if req.Command = "close" then (.ok (), [resp])
    else
      let (r, outs) := runLoop b rest
      (r, resp :: outs)
termination_by lines.length
decreasing_by exact readRequest_ok_length lines req rest h

/-- The unsolicited capabilities response of SendInitialResponse. -/
def initialResponse : Response :=
  { ID := 0, KnownCommands := ["put", "get", "close"] }

/-- CacheProg.Run: emit the capabilities response, then the request loop. -/
def run (b : Backend) (lines : List String) : Except String Unit × List Response :=
  let r := runLoop b lines
  (r.1, initialResponse :: r.2)

/-! ### Filesystem model for the local disk store -/

/-- A filesystem: an association list from absolute paths to contents. -/
def FS : Type := List (String × String)

def fsRead (fs : FS) (p : String) : Option String :=
  match fs with
  | [] => none
  | (q, c) :: rest => if q = p then some c else fsRead rest p

def fsRemove (fs : FS) (p : String) : FS :=
  match fs with
  | [] => []
  | (q, c) :: rest => if q = p then fsRemove rest p else (q, c) :: fsRemove rest p

def fsWrite (fs : FS) (p : String) (content : String) : FS :=
  (p, content) :: fsRemove fs p

/-- os.Rename: moves src onto dst, replacing dst. A missing src cannot
occur on the paths this model takes it on. -/
def fsRename (fs : FS) (src dst : String) : FS :=
  match fsRead fs src with
  | none => fs
  | some c => fsWrite (fsRemove fs src) dst c

theorem fsRead_fsWrite_self (fs : FS) (p : String) (c : String) :
    fsRead (fsWrite fs p c) p = some c := by
  simp [fsWrite, fsRead]

theorem fsRead_fsRemove_self (fs : FS) (p : String) :
    fsRead (fsRemove fs p) p = none := by
  induction fs with
  | nil => rfl
  | cons kv rest ih =>
    by_cases h : kv.1 = p
    · simpa [fsRemove, h] using ih
    · simpa [fsRemove, fsRead, h] using ih

theorem fsRead_fsRemove_ne (fs : FS) (p q : String) (h : p ≠ q) :
    fsRead (fsRemove fs p) q = fsRead fs q := by
  induction fs with
  | nil => rfl
  | cons kv rest ih =>
    by_cases h1 : kv.1 = p
    · have h2 : kv.1 ≠ q := fun hq => h (h1.symm.trans hq)
      simp only [fsRemove, if_pos h1, fsRead, if_neg h2]
      exact ih
    · simp only [fsRemove, if_neg h1, fsRead]
      by_cases h2 : kv.1 = q
      · simp only [if_pos h2]
      · simp only [if_neg h2]
        exact ih

theorem fsRead_fsWrite_ne (fs : FS) (p q : String) (c : String) (h : p ≠ q) :
    fsRead (fsWrite fs p c) q = fsRead fs q := by
  simp only [fsWrite, fsRead, if_neg h]
  exact fsRead_fsRemove_ne fs p q h

/-! ### Local disk store (localcache: localCache) -/

/-- Metadata for a cached entry (localCacheMetadata); PutTime is kept
as its unix second, which is what the on-disk format stores. -/
structure localCacheMetadata where
  OutputID : List Nat
  Size : Int
  PutTime : Int
deriving DecidableEq

/-- The on-disk format-version prefix of cache file names. Its defining
declaration is outside the shown sources; every property proved here is
independent of its value. -/
def fileFormatVersion : String := "v1"

/-- localCache.actionIDToPath: shard by the first byte's two hex digits.
(The Go code indexes hexActionID[:2], which requires a nonempty
actionID; the theorems below assume that explicitly.) -/
def actionIDToPath (cacheDir : String) (actionID : List Nat) : String :=
  let hexActionID := String.mk (hexEncodeBytes actionID)
  let subdir := String.mk ((hexEncodeBytes actionID).take 2)
  cacheDir ++ "/" ++ subdir ++ "/" ++ fileFormatVersion ++ hexActionID

/-- localCache.metadataPath. -/
def metadataPath (cacheDir : String) (actionID : List Nat) : String :=
  actionIDToPath cacheDir actionID ++ ".meta"

/-- Failure injection points of localCache.write: os.Create, io.Copy,
File.Close and os.Rename. -/
structure WriteFaults where
  createFails : Bool := false
  copyFails : Bool := false
  closeFails : Bool := false
  renameFails : Bool := false

/-- localCache.write: stream the body to diskPath+".tmp", close, then
rename onto diskPath; the deferred os.Remove cleans the temp file up on
every failure path (after a successful rename it is a no-op). -/
def localCacheWrite (cacheDir : String) (fs : FS) (actionID : List Nat) (body : String)
    (f : WriteFaults) : Except String String × FS :=
  if f.createFails then (.error "failed to create temp file", fs)
  else if f.copyFails then
    (.error "failed to write to temp file",
      fsRemove (fsWrite fs (actionIDToPath cacheDir actionID ++ ".tmp") "")
        (actionIDToPath cacheDir actionID ++ ".tmp"))
  else if f.closeFails then
    (.error "failed to close temp file",
      fsRemove (fsWrite (fsWrite fs (actionIDToPath cacheDir actionID ++ ".tmp") "")
        (actionIDToPath cacheDir actionID ++ ".tmp") body)
        (actionIDToPath cacheDir actionID ++ ".tmp"))
  else if f.renameFails then
    (.error "failed to rename cache file",
      fsRemove (fsWrite (fsWrite fs (actionIDToPath cacheDir actionID ++ ".tmp") "")
        (actionIDToPath cacheDir actionID ++ ".tmp") body)
        (actionIDToPath cacheDir actionID ++ ".tmp"))
  else
    (.ok (actionIDToPath cacheDir actionID),
      fsRename (fsWrite (fsWrite fs (actionIDToPath cacheDir actionID ++ ".tmp") "")
        (actionIDToPath cacheDir actionID ++ ".tmp") body)
        (actionIDToPath cacheDir actionID ++ ".tmp") (actionIDToPath cacheDir actionID))

/-- Failure injection points of localCache.writeMetadata: os.WriteFile
and os.Rename. -/
structure MetaFaults where
  writeFails : Bool := false
  renameFails : Bool := false

/-- The textual sidecar record written by localCache.writeMetadata. -/
def metadataContent (meta : localCacheMetadata) : String :=
  "outputID:" ++ String.mk (hexEncodeBytes meta.OutputID) ++ "\nsize:" ++
    intToDec meta.Size ++ "\ntime:" ++ intToDec meta.PutTime ++ "\n"

/-- localCache.writeMetadata: write the record to metaPath+".tmp", then
rename onto metaPath, removing the temp file if the rename fails. -/
def writeMetadata (cacheDir : String) (fs : FS) (actionID : List Nat)
    (meta : localCacheMetadata) (f : MetaFaults) : Except String Unit × FS :=
  if f.writeFails then (.error "failed to write temp metadata", fs)
  else if f.renameFails then
    (.error "failed to rename metadata",
      fsRemove (fsWrite fs (metadataPath cacheDir actionID ++ ".tmp") (metadataContent meta))
        (metadataPath cacheDir actionID ++ ".tmp"))
  else
    (.ok (), fsRename
      (fsWrite fs (metadataPath cacheDir actionID ++ ".tmp") (metadataContent meta))
      (metadataPath cacheDir actionID ++ ".tmp") (metadataPath cacheDir actionID))

/-- One step of readMetadata's line loop: TrimSpace, then the
HasPrefix/Sscanf ladder, where a failed Sscanf leaves the variable
unchanged. -/
def parseMetadataLine (acc : String × Int × Int) (lineCs : List Char) : String × Int × Int :=
  if "outputID:".data.isPrefixOf (trimSpace lineCs) then
    match scanString ((trimSpace lineCs).drop 9) with
    | some tok => (String.mk tok, acc.2.1, acc.2.2)
    | none => acc
  else if "size:".data.isPrefixOf (trimSpace lineCs) then
    match scanInt ((trimSpace lineCs).drop 5) with
    | some n => (acc.1, n, acc.2.2)
    | none => acc
  else if "time:".data.isPrefixOf (trimSpace lineCs) then
    match scanInt ((trimSpace lineCs).drop 5) with
    | some n => (acc.1, acc.2.1, n)
    | none => acc
  else acc

def parseMetadataLines (data : String) : String × Int × Int :=
  (splitNl data.data).foldl parseMetadataLine ("", 0, 0)

/-- Errors of localCache.readMetadata, separating the os.ErrNotExist
case that check tests with errors.Is. -/
inductive MetaErr where
  | notExist : MetaErr
  | other (msg : String) : MetaErr
deriving DecidableEq

/-- localCache.readMetadata: read the sidecar, parse its lines, reject a
missing or undecodable outputID field. -/
def readMetadata (cacheDir : String) (fs : FS) (actionID : List Nat) :
    Except MetaErr localCacheMetadata :=
  match fsRead fs (metadataPath cacheDir actionID) with
  | none => .error .notExist
  | some data =>
    if (parseMetadataLines data).1 = "" then .error (.other "metadata missing outputID field")
    else
      match hexDecode (parseMetadataLines data).1.data with
      | none => .error (.other "failed to decode outputID")
      | some outputID =>
        .ok ⟨outputID, (parseMetadataLines data).2.1, (parseMetadataLines data).2.2⟩

/-- localCache.check: a readMetadata failure of either kind is a miss
(the non-notExist branch additionally stats the data file, but only to
choose between two warning messages); it never returns an error. -/
def check (cacheDir : String) (fs : FS) (actionID : List Nat) : Option localCacheMetadata :=
  match readMetadata cacheDir fs actionID with
  | .error .notExist => none
  | .error (.other _) => none
  | .ok meta => some meta

/-- localCache.writeWithMetadata: write the body, then the metadata; a
metadata failure is only logged and the call still succeeds. -/
def writeWithMetadata (cacheDir : String) (fs : FS) (actionID : List Nat) (body : String)
    (meta : localCacheMetadata) (wf : WriteFaults) (mf : MetaFaults) :
    Except String String × FS :=
  match localCacheWrite cacheDir fs actionID body wf with
  | (.error e, fs1) => (.error e, fs1)
  | (.ok diskPath, fs1) => (.ok diskPath, (writeMetadata cacheDir fs1 actionID meta mf).2)

/-! ### Locking group (pkg/locking: NoOpGroup, MemLock) -/

/-- NoOpGroup.DoWithLock: run the function immediately, pass its value
and error through. -/
def noOpDoWithLock {α : Type} (key : String) (fn : Unit → α × Option String) :
    α × Option String :=
  let r := fn ()
  (r.1, r.2)

/-- The state of a MemLock: which keys have a mutex in the map, and
which of those mutexes are currently held. -/
structure MemLock where
  locks : List String := []
  held : List String := []

/-- MemLock.DoWithLock in a sequential model: create the key's mutex if
absent (under the map lock), acquire it — acquisition blocks but cannot
fail — run fn, and release it on the way out as the deferred Unlock
does, error or not. -/
def memLockDoWithLock {α : Type} (s : MemLock) (key : String)
    (fn : Unit → α × Option String) : (α × Option String) × MemLock :=
  let s1 := if s.locks.contains key then s else { s with locks := key :: s.locks }
  let s2 := { s1 with held := key :: s1.held }
  let r := fn ()
  let s3 := { s2 with held := s2.held.erase key }
  (r, s3)

/-! ### Debug decorator (backends: Debug) -/

/-- A call made to the wrapped backend, for observing call counts. -/
inductive BackendCall where
  | put (actionID outputID body : List Nat) (bodySize : Int) : BackendCall
  | get (actionID : List Nat) : BackendCall
  | close : BackendCall
  | clear : BackendCall
deriving DecidableEq

/-- Debug.Put: log, forward to the wrapped backend once, log the
outcome, and return the inner values unchanged (also on error). -/
def debugPut (b : Backend) (actionID outputID body : List Nat) (bodySize : Int) :
    (String × Option String) × List BackendCall × List String :=
  let l1 := "[DEBUG] Put: actionID=" ++ String.mk (hexEncodeBytes actionID) ++
    ", outputID=" ++ String.mk (hexEncodeBytes outputID) ++ ", size=" ++ intToDec bodySize
  let inner := b.put actionID outputID body bodySize
  let calls := [BackendCall.put actionID outputID body bodySize]
  match inner.2 with
  | some e => ((inner.1, some e), calls, [l1, "[DEBUG] Put: ERROR: " ++ e])
  | none => ((inner.1, none), calls, [l1, "[DEBUG] Put: stored at " ++ inner.1])

/-- Debug.Get: log, forward once, log hit/miss/error, return the six
inner values unchanged. -/
def debugGet (b : Backend) (actionID : List Nat) :
    GetReturn × List BackendCall × List String :=
  let l1 := "[DEBUG] Get: actionID=" ++ String.mk (hexEncodeBytes actionID)
  let g := b.get actionID
  let calls := [BackendCall.get actionID]
  match g.err with
  | some e => (g, calls, [l1, "[DEBUG] Get: ERROR: " ++ e])
  | none =>
    if g.miss then (g, calls, [l1, "[DEBUG] Get: MISS"])
    else (g, calls, [l1, "[DEBUG] Get: HIT at " ++ g.diskPath ++ ", outputID=" ++
      String.mk (hexEncodeBytes g.outputID) ++ ", size=" ++ intToDec g.size])

/-- Debug.Close: log, forward once, return the inner error unchanged. -/
def debugClose (b : Backend) : Option String × List BackendCall × List String :=
  let inner := b.close
  let calls := [BackendCall.close]
  match inner with
  | some e => (some e, calls, ["[DEBUG] Close: closing backend", "[DEBUG] Close: ERROR: " ++ e])
  | none => (none, calls, ["[DEBUG] Close: closing backend"])

/-- Debug.Clear: log, forward once, return the inner error unchanged. -/
def debugClear (b : Backend) : Option String × List BackendCall × List String :=
  let inner := b.clear
  let calls := [BackendCall.clear]
  match inner with
  | some e => (some e, calls, ["[DEBUG] Clear: clearing cache", "[DEBUG] Clear: ERROR: " ++ e])
  | none => (none, calls,
      ["[DEBUG] Clear: clearing cache", "[DEBUG] Clear: cache cleared successfully"])

/-! ### Round trip of the metadata sidecar format -/

theorem isPrefixOf_append_self (p t : List Char) : p.isPrefixOf (p ++ t) = true := by
  induction p with
  | nil => simp
  | cons a as ih => simp [List.isPrefixOf_cons₂, ih]

theorem outputIDLit_not_space : ∀ c ∈ "outputID:".data, isSpaceChar c = false := by decide

theorem sizeLit_not_space : ∀ c ∈ "size:".data, isSpaceChar c = false := by decide

theorem timeLit_not_space : ∀ c ∈ "time:".data, isSpaceChar c = false := by decide

theorem outputID_not_prefix_of_size (t : List Char) :
    "outputID:".data.isPrefixOf ("size:".data ++ t) = false := by
  show List.isPrefixOf ('o' :: "utputID:".data) ('s' :: ("ize:".data ++ t)) = false
  rw [List.isPrefixOf_cons₂]
  simp

theorem outputID_not_prefix_of_time (t : List Char) :
    "outputID:".data.isPrefixOf ("time:".data ++ t) = false := by
  show List.isPrefixOf ('o' :: "utputID:".data) ('t' :: ("ime:".data ++ t)) = false
  rw [List.isPrefixOf_cons₂]
  simp

theorem size_not_prefix_of_time (t : List Char) :
    "size:".data.isPrefixOf ("time:".data ++ t) = false := by
  show List.isPrefixOf ('s' :: "ize:".data) ('t' :: ("ime:".data ++ t)) = false
  rw [List.isPrefixOf_cons₂]
  simp

theorem intDigits_not_space (i : Int) : ∀ c ∈ intDigits i, isSpaceChar c = false := by
  unfold intDigits
  split
  · intro c hc
    rcases List.mem_cons.mp hc with h1 | h1
    · subst h1; decide
    · exact natToDigits_not_space _ c h1
  · exact natToDigits_not_space _

theorem not_newline_of_not_space (c : Char) (h : isSpaceChar c = false) : c ≠ '\n' := by
  intro he
  subst he
  simp [isSpaceChar] at h

theorem scanString_all_nonspace (H : List Char) (h : ∀ c ∈ H, isSpaceChar c = false)
    (hne : H ≠ []) : scanString H = some H := by
  unfold scanString
  rw [dropWhile_eq_self_of_all _ _ h,
      takeWhile_eq_self_of_all _ _ (fun c hc => by simp [h c hc])]
  simp [List.isEmpty_iff, hne]

theorem drop_outputIDLit_append (H : List Char) : ("outputID:".data ++ H).drop 9 = H := by
  rw [show (9 : Nat) = "outputID:".data.length from rfl]
  exact List.drop_left _ _

theorem drop_sizeLit_append (H : List Char) : ("size:".data ++ H).drop 5 = H := by
  rw [show (5 : Nat) = "size:".data.length from rfl]
  exact List.drop_left _ _

theorem drop_timeLit_append (H : List Char) : ("time:".data ++ H).drop 5 = H := by
  rw [show (5 : Nat) = "time:".data.length from rfl]
  exact List.drop_left _ _

theorem parseMetadataLine_outputID (acc : String × Int × Int) (H : List Char)
    (hH : ∀ c ∈ H, isSpaceChar c = false) (hne : H ≠ []) :
    parseMetadataLine acc ("outputID:".data ++ H) = (String.mk H, acc.2.1, acc.2.2) := by
  have hns : ∀ c ∈ "outputID:".data ++ H, isSpaceChar c = false := by
    intro c hc
    rcases List.mem_append.mp hc with h1 | h1
    · exact outputIDLit_not_space c h1
    · exact hH c h1
  unfold parseMetadataLine
  rw [trimSpace_eq_self _ hns, drop_outputIDLit_append]
  simp only [isPrefixOf_append_self, if_true, scanString_all_nonspace H hH hne]

theorem parseMetadataLine_outputID_empty (acc : String × Int × Int) :
    parseMetadataLine acc ("outputID:".data) = acc := rfl

theorem parseMetadataLine_nil (acc : String × Int × Int) :
    parseMetadataLine acc [] = acc := rfl

theorem parseMetadataLine_size (acc : String × Int × Int) (n : Int) :
    parseMetadataLine acc ("size:".data ++ intDigits n) = (acc.1, n, acc.2.2) := by
  have hns : ∀ c ∈ "size:".data ++ intDigits n, isSpaceChar c = false := by
    intro c hc
    rcases List.mem_append.mp hc with h1 | h1
    · exact sizeLit_not_space c h1
    · exact intDigits_not_space n c h1
  unfold parseMetadataLine
  rw [trimSpace_eq_self _ hns, drop_sizeLit_append]
  rw [outputID_not_prefix_of_size]
  simp only [isPrefixOf_append_self, if_true, Bool.false_eq_true, if_false, scanInt_intDigits]

theorem parseMetadataLine_time (acc : String × Int × Int) (n : Int) :
    parseMetadataLine acc ("time:".data ++ intDigits n) = (acc.1, acc.2.1, n) := by
  have hns : ∀ c ∈ "time:".data ++ intDigits n, isSpaceChar c = false := by
    intro c hc
    rcases List.mem_append.mp hc with h1 | h1
    · exact timeLit_not_space c h1
    · exact intDigits_not_space n c h1
  unfold parseMetadataLine
  rw [trimSpace_eq_self _ hns, drop_timeLit_append]
  rw [outputID_not_prefix_of_time, size_not_prefix_of_time]
  simp only [isPrefixOf_append_self, if_true, Bool.false_eq_true, if_false, scanInt_intDigits]

theorem metadataContent_data (meta : localCacheMetadata) :
    (metadataContent meta).data =
      ("outputID:".data ++ hexEncodeBytes meta.OutputID) ++ '\n' ::
        (("size:".data ++ intDigits meta.Size) ++ '\n' ::
          (("time:".data ++ intDigits meta.PutTime) ++ '\n' :: [])) := by
  show ("outputID:" ++ String.mk (hexEncodeBytes meta.OutputID) ++ "\nsize:" ++
    intToDec meta.Size ++ "\ntime:" ++ intToDec meta.PutTime ++ "\n").data = _
  simp only [String.data_append, intToDec]
  simp [List.append_assoc]

/-- Parsing the metadata record that writeMetadata generated recovers
the hex outputID (empty when OutputID was empty, so that readMetadata
will reject it), the size and the time. -/
theorem parseMetadataLines_content (meta : localCacheMetadata)
    (hb : ∀ b ∈ meta.OutputID, b < 256) :
    parseMetadataLines (metadataContent meta) =
      (if meta.OutputID.isEmpty then ""
        else String.mk (hexEncodeBytes meta.OutputID), meta.Size, meta.PutTime) := by
  have hHns := hexEncodeBytes_not_space meta.OutputID hb
  have hnl1 : '\n' ∉ "outputID:".data ++ hexEncodeBytes meta.OutputID := by
    intro hc
    rcases List.mem_append.mp hc with h1 | h1
    · exact not_newline_of_not_space _ (outputIDLit_not_space _ h1) rfl
    · exact not_newline_of_not_space _ (hHns _ h1) rfl
  have hnl2 : '\n' ∉ "size:".data ++ intDigits meta.Size := by
    intro hc
    rcases List.mem_append.mp hc with h1 | h1
    · exact not_newline_of_not_space _ (sizeLit_not_space _ h1) rfl
    · exact not_newline_of_not_space _ (intDigits_not_space _ _ h1) rfl
  have hnl3 : '\n' ∉ "time:".data ++ intDigits meta.PutTime := by
    intro hc
    rcases List.mem_append.mp hc with h1 | h1
    · exact not_newline_of_not_space _ (timeLit_not_space _ h1) rfl
    · exact not_newline_of_not_space _ (intDigits_not_space _ _ h1) rfl
  unfold parseMetadataLines
  rw [metadataContent_data]
  rw [splitNl_append_cons _ _ hnl1, splitNl_append_cons _ _ hnl2, splitNl_append_cons _ _ hnl3]
  show List.foldl parseMetadataLine ("", 0, 0)
    [("outputID:".data ++ hexEncodeBytes meta.OutputID),
      ("size:".data ++ intDigits meta.Size),
      ("time:".data ++ intDigits meta.PutTime), []] = _
  rw [List.foldl_cons, List.foldl_cons, List.foldl_cons, List.foldl_cons, List.foldl_nil]
  by_cases hOe : meta.OutputID = []
  · rw [hOe]
    rw [show hexEncodeBytes ([] : List Nat) = [] from rfl, List.append_nil]
    rw [parseMetadataLine_outputID_empty, parseMetadataLine_size, parseMetadataLine_time,
        parseMetadataLine_nil]
    simp
  · have hHne : hexEncodeBytes meta.OutputID ≠ [] := by
      cases ho : meta.OutputID with
      | nil => exact absurd ho hOe
      | cons b t => simp [hexEncodeBytes]
    rw [parseMetadataLine_outputID _ _ hHns hHne, parseMetadataLine_size,
        parseMetadataLine_time, parseMetadataLine_nil]
    simp [List.isEmpty_iff, hOe]

/-! ### Unfolding facts for the engine loop -/

theorem runLoop_eof (b : Backend) (lines : List String) (x : List String)
    (h : readRequest lines = (.eof, x)) : runLoop b lines = (.ok (), []) := by
  rw [runLoop]
  split
  · rfl
  · rename_i e y heq
    rw [h] at heq
    simp at heq
  · rename_i req rest heq
    rw [h] at heq
    simp at heq

theorem runLoop_fail (b : Backend) (lines : List String) (e : String) (x : List String)
    (h : readRequest lines = (.fail e, x)) :
    runLoop b lines = (.error ("failed to read request: " ++ e), []) := by
  rw [runLoop]
  split
  · rename_i y heq
    rw [h] at heq
    simp at heq
  · rename_i e2 y heq
    rw [h] at heq
    simp only [Prod.mk.injEq, ReadResult.fail.injEq] at heq
    rw [heq.1]
  · rename_i req rest heq
    rw [h] at heq
    simp at heq

theorem runLoop_ok_step (b : Backend) (lines : List String) (req : Request)
    (rest : List String) (h : readRequest lines = (.ok req, rest))
    (hnc : req.Command ≠ "close") :
    runLoop b lines = ((runLoop b rest).1, handleRequest b req :: (runLoop b rest).2) := by
  rw [runLoop]
  split
  · rename_i y heq
    rw [h] at heq
    simp at heq
  · rename_i e y heq
    rw [h] at heq
    simp at heq
  · rename_i req2 rest2 heq
    rw [h] at heq
    simp only [Prod.mk.injEq, ReadResult.ok.injEq] at heq
    obtain ⟨h1, h2⟩ := heq
    subst h1
    subst h2
    rw [if_neg hnc]

theorem runLoop_close_step (b : Backend) (lines : List String) (req : Request)
    (rest : List String) (h : readRequest lines = (.ok req, rest))
    (hc : req.Command = "close") :
    runLoop b lines = (.ok (), [handleRequest b req]) := by
  rw [runLoop]
  split
  · rename_i y heq
    rw [h] at heq
    simp at heq
  · rename_i e y heq
    rw [h] at heq
    simp at heq
  · rename_i req2 rest2 heq
    rw [h] at heq
    simp only [Prod.mk.injEq, ReadResult.ok.injEq] at heq
    obtain ⟨h1, h2⟩ := heq
    subst h1
    subst h2
    rw [if_pos hc]

theorem handleRequest_put_err (b : Backend) (req : Request) (dp e : String)
    (hc : req.Command = "put")
    (hp : b.put req.ActionID req.OutputID req.Body req.BodySize = (dp, some e)) :
    handleRequest b req = { ID := req.ID, Err := e } := by
  unfold handleRequest
  rw [if_pos hc, hp]

theorem handleRequest_get_err (b : Backend) (req : Request) (e : String)
    (hc : req.Command = "get") (hg : (b.get req.ActionID).err = some e) :
    handleRequest b req = { ID := req.ID, Err := e } := by
  unfold handleRequest
  rw [if_neg (by rw [hc]; decide), if_pos hc, hg]

theorem handleRequest_close_err (b : Backend) (req : Request) (e : String)
    (hc : req.Command = "close") (hx : b.close = some e) :
    handleRequest b req = { ID := req.ID, Err := e } := by
  unfold handleRequest
  rw [if_neg (by rw [hc]; decide), if_neg (by rw [hc]; decide), if_pos hc, hx]

theorem handleRequest_unknown (b : Backend) (req : Request)
    (h1 : req.Command ≠ "put") (h2 : req.Command ≠ "get") (h3 : req.Command ≠ "close") :
    handleRequest b req = { ID := req.ID, Err := "unknown command: " ++ req.Command } := by
  unfold handleRequest
  rw [if_neg h1, if_neg h2, if_neg h3]

theorem handleRequest_knownCommands (b : Backend) (req : Request) :
    (handleRequest b req).KnownCommands = [] := by
  unfold handleRequest
  repeat' split
  all_goals rfl

/-- No response built by the request loop ever carries KnownCommands;
only the initial capabilities response does. -/
theorem runLoop_no_knownCommands (b : Backend) (lines : List String) :
    ∀ resp ∈ (runLoop b lines).2, resp.KnownCommands = [] := by
  have key : ∀ (n : Nat) (ls : List String), ls.length < n →
      ∀ resp ∈ (runLoop b ls).2, resp.KnownCommands = [] := by
    intro n
    induction n with
    | zero => intro ls h; exact absurd h (Nat.not_lt_zero _)
    | succ n ih =>
      intro ls hlen resp hresp
      rcases hr : readRequest ls with ⟨res, rest⟩
      cases res with
      | eof =>
        rw [runLoop_eof b ls rest hr] at hresp
        simp at hresp
      | fail e =>
        rw [runLoop_fail b ls e rest hr] at hresp
        simp at hresp
      | ok req =>
        by_cases hc : req.Command = "close"
        · rw [runLoop_close_step b ls req rest hr hc] at hresp
          rw [List.mem_singleton] at hresp
          subst hresp
          exact handleRequest_knownCommands b req
        · rw [runLoop_ok_step b ls req rest hr hc] at hresp
          rcases List.mem_cons.mp hresp with h1 | h1
          · subst h1
            exact handleRequest_knownCommands b req
          · exact ih rest (by have := readRequest_ok_length ls req rest hr; omega) resp h1
  exact key (lines.length + 1) lines (by omega)

/-- A deterministic backend whose calls always succeed. -/
def okBackend : Backend :=
  { put := fun _ _ _ _ => ("/cache/path", none)
    get := fun _ => {}
    close := none
    clear := none }

/-- A deterministic backend whose calls always fail. -/
def errBackend : Backend :=
  { put := fun _ _ _ _ => ("", some "disk full")
    get := fun _ => { err := some "io error" }
    close := some "close failed"
    clear := some "clear error" }

/-- Fact refuting C1 at a concrete session: an unknown command is not
fatal — the run loop sends a per-request error response, continues with
the next request, and terminates without a process-level error. -/
theorem c1_counterexample :
    run okBackend ["\x7b\"ID\":1,\"Command\":\"frob\"\x7d",
        "\x7b\"ID\":2,\"Command\":\"get\"\x7d"] =
      (.ok (), [initialResponse,
        { ID := 1, Err := "unknown command: frob" },
        { ID := 2 }]) := by
  have h1 : readRequest ["\x7b\"ID\":1,\"Command\":\"frob\"\x7d",
      "\x7b\"ID\":2,\"Command\":\"get\"\x7d"] =
      (.ok { ID := 1, Command := "frob" }, ["\x7b\"ID\":2,\"Command\":\"get\"\x7d"]) := by decide
  have h2 : readRequest ["\x7b\"ID\":2,\"Command\":\"get\"\x7d"] =
      (.ok { ID := 2, Command := "get" }, []) := by decide
  have h3 : readRequest ([] : List String) = (.eof, []) := by decide
  unfold run
  rw [runLoop_ok_step _ _ _ _ h1 (by decide), runLoop_ok_step _ _ _ _ h2 (by decide),
      runLoop_eof _ _ _ h3]
  decide

/-- Amended C1: a malformed request line (or body line) is fatal with a
process-level error; a missing body line after a put header is EOF and
ends the loop without error; an unknown command produces a per-request
error response and the session continues. -/
theorem c1_amended :
    (∀ (b : Backend) (lines : List String) (e : String) (x : List String),
      readRequest lines = (.fail e, x) →
      (run b lines).1 = .error ("failed to read request: " ++ e)) ∧
    (∀ (b : Backend) (lines : List String) (line : String) (rest : List String) (req : Request),
      skipBlanks lines = line :: rest → unmarshalRequest line = .ok req →
      req.Command = "put" → req.BodySize > 0 → skipBlanks rest = [] →
      run b lines = (.ok (), [initialResponse])) ∧
    (∀ (b : Backend) (lines : List String) (req : Request) (rest : List String),
      readRequest lines = (.ok req, rest) →
      req.Command ≠ "put" → req.Command ≠ "get" → req.Command ≠ "close" →
      run b lines = ((runLoop b rest).1,
        initialResponse :: { ID := req.ID, Err := "unknown command: " ++ req.Command } ::
          (runLoop b rest).2)) := by
  refine ⟨?_, ?_, ?_⟩
  · intro b lines e x h
    unfold run
    rw [runLoop_fail b lines e x h]
  · intro b lines line rest req hsb hum hcmd hbs hsb2
    have hrr : readRequest lines = (.eof, []) := by
      simp [readRequest, hsb, hum, hcmd, hbs, hsb2]
    unfold run
    rw [runLoop_eof b lines [] hrr]
  · intro b lines req rest h h1 h2 h3
    unfold run
    rw [runLoop_ok_step b lines req rest h h3, handleRequest_unknown b req h1 h2 h3]

/-- Witness for the amended C1 at concrete sessions covering all three
conjuncts. -/
theorem c1_amended_witness :
    (run okBackend ["\x7bbad"]).1 = .error
      ("failed to read request: failed to unmarshal request: invalid JSON (line: \"\x7bbad\")") ∧
    run okBackend ["\x7b\"ID\":7,\"Command\":\"put\",\"BodySize\":4\x7d"] =
      (.ok (), [initialResponse]) ∧
    run okBackend ["\x7b\"ID\":1,\"Command\":\"frob\"\x7d"] =
      ((runLoop okBackend []).1,
        initialResponse :: { ID := 1, Err := "unknown command: " ++ "frob" } ::
          (runLoop okBackend []).2) :=
  ⟨c1_amended.1 okBackend _ _ [] (by decide),
   c1_amended.2.1 okBackend _ "\x7b\"ID\":7,\"Command\":\"put\",\"BodySize\":4\x7d" []
     { ID := 7, Command := "put", BodySize := 4 } (by decide) (by decide) (by decide)
     (by decide) (by decide),
   c1_amended.2.2 okBackend _ { ID := 1, Command := "frob" } [] (by decide) (by decide)
     (by decide) (by decide)⟩

/-- Fact refuting C2 at a concrete session: a put declaring BodySize 2
whose body line decodes to a single byte is accepted, and the request
body is that one byte, not two. -/
theorem c2_counterexample :
    readRequest ["\x7b\"ID\":1,\"Command\":\"put\",\"BodySize\":2\x7d", "\"YQ==\""] =
      (.ok { ID := 1, Command := "put", Body := [97], BodySize := 2 }, []) ∧
    (({ ID := 1, Command := "put", Body := [97], BodySize := 2 } : Request).Body.length : Int) ≠
      ({ ID := 1, Command := "put", Body := [97], BodySize := 2 } : Request).BodySize := by
  constructor
  · decide
  · decide

/-- Amended C2: for a put declaring a positive BodySize, the engine
reads exactly one further non-blank line, parses it as a JSON string
literal, base64-decodes it and uses the decoded bytes as the request
body — without checking that their count equals BodySize. -/
theorem c2_amended (lines : List String) (line : String) (rest : List String) (req : Request)
    (bodyLine : String) (rest2 : List String) (s : String) (bytes : List Nat)
    (hsb : skipBlanks lines = line :: rest)
    (hum : unmarshalRequest line = .ok req)
    (hcmd : req.Command = "put") (hbs : req.BodySize > 0)
    (hsb2 : skipBlanks rest = bodyLine :: rest2)
    (hjp : jsonParse bodyLine = some (.str s))
    (hbd : base64Decode s.data = some bytes) :
    readRequest lines = (.ok { req with Body := bytes }, rest2) := by
  simp [readRequest, hsb, hum, hcmd, hbs, hsb2, hjp, hbd]

/-- Witness for the amended C2: the counterexample session, where the
decoded body has one byte against a declared BodySize of 2. -/
theorem c2_amended_witness :
    readRequest ["\x7b\"ID\":1,\"Command\":\"put\",\"BodySize\":2\x7d", "\"YQ==\""] =
      (.ok { ID := 1, Command := "put", Body := [97], BodySize := 2 }, []) := by
  have h := c2_amended ["\x7b\"ID\":1,\"Command\":\"put\",\"BodySize\":2\x7d", "\"YQ==\""]
    "\x7b\"ID\":1,\"Command\":\"put\",\"BodySize\":2\x7d" ["\"YQ==\""]
    { ID := 1, Command := "put", BodySize := 2 } "\"YQ==\"" [] "YQ==" [97]
    (by decide) (by decide) (by decide) (by decide) (by decide) rfl rfl
  exact h

/-- Fact refuting C3: the capabilities response does not serialize with
an explicit "ID":0 — the ID field carries omitempty and is dropped. -/
theorem c3_counterexample :
    marshalResponse initialResponse ≠
      "\x7b\"ID\":0,\"KnownCommands\":[\"put\",\"get\",\"close\"]\x7d" := by
  decide

/-- Amended C3: before reading any input the engine emits exactly one
capabilities response, and its serialized form is the line
\x7b"KnownCommands":["put","get","close"]\x7d (ID 0 is omitted by
omitempty). -/
theorem c3_amended (b : Backend) (lines : List String) :
    (run b lines).2.head? = some initialResponse ∧
    marshalResponse initialResponse = "\x7b\"KnownCommands\":[\"put\",\"get\",\"close\"]\x7d" ∧
    (run b lines).2.countP (fun r => !r.KnownCommands.isEmpty) = 1 := by
  refine ⟨by unfold run; rfl, by decide, ?_⟩
  unfold run
  show ((initialResponse :: (runLoop b lines).2).countP fun r => !r.KnownCommands.isEmpty) = 1
  rw [List.countP_cons]
  have h0 : (runLoop b lines).2.countP (fun r => !r.KnownCommands.isEmpty) = 0 := by
    rw [List.countP_eq_zero]
    intro a ha
    rw [runLoop_no_knownCommands b lines a ha]
    decide
  rw [h0]
  decide

/-- Confirmation of C4: a backend failure on a parsed put, get or close
is captured as the Response's Err with the request's ID, the response
is emitted, and the loop continues to the next request — except close,
which ends the loop after its response. -/
theorem c4_backend_errors (b : Backend) (lines : List String) (req : Request)
    (rest : List String) (h : readRequest lines = (.ok req, rest)) :
    (∀ dp e, req.Command = "put" →
      b.put req.ActionID req.OutputID req.Body req.BodySize = (dp, some e) →
      runLoop b lines = ((runLoop b rest).1,
        { ID := req.ID, Err := e } :: (runLoop b rest).2)) ∧
    (∀ e, req.Command = "get" → (b.get req.ActionID).err = some e →
      runLoop b lines = ((runLoop b rest).1,
        { ID := req.ID, Err := e } :: (runLoop b rest).2)) ∧
    (∀ e, req.Command = "close" → b.close = some e →
      runLoop b lines = (.ok (), [{ ID := req.ID, Err := e }])) := by
  refine ⟨?_, ?_, ?_⟩
  · intro dp e hc hp
    rw [runLoop_ok_step b lines req rest h (by rw [hc]; decide)]
    rw [handleRequest_put_err b req dp e hc hp]
  · intro e hc hg
    rw [runLoop_ok_step b lines req rest h (by rw [hc]; decide)]
    rw [handleRequest_get_err b req e hc hg]
  · intro e hc hx
    rw [runLoop_close_step b lines req rest h hc]
    rw [handleRequest_close_err b req e hc hx]

/-- Witness for C4 at concrete failing sessions for put, get and close. -/
theorem c4_backend_errors_witness :
    runLoop errBackend ["\x7b\"ID\":5,\"Command\":\"put\"\x7d"] =
      ((runLoop errBackend []).1,
        { ID := 5, Err := "disk full" } :: (runLoop errBackend []).2) ∧
    runLoop errBackend ["\x7b\"ID\":6,\"Command\":\"get\"\x7d"] =
      ((runLoop errBackend []).1,
        { ID := 6, Err := "io error" } :: (runLoop errBackend []).2) ∧
    runLoop errBackend ["\x7b\"ID\":7,\"Command\":\"close\"\x7d"] =
      (.ok (), [{ ID := 7, Err := "close failed" }]) :=
  ⟨(c4_backend_errors errBackend _ { ID := 5, Command := "put" } [] (by decide)).1
      "" "disk full" (by decide) (by decide),
   (c4_backend_errors errBackend _ { ID := 6, Command := "get" } [] (by decide)).2.1
      "io error" (by decide) (by decide),
   (c4_backend_errors errBackend _ { ID := 7, Command := "close" } [] (by decide)).2.2
      "close failed" (by decide) (by decide)⟩

/-! ### Path distinctness and evaluation facts for the local store -/

theorem ne_append_of_data_ne_nil (s t : String) (h : t.data ≠ []) : s ≠ s ++ t := by
  intro he
  apply h
  have hd : s.data ++ ([] : List Char) = s.data ++ t.data := by
    rw [List.append_nil, ← String.data_append, ← he]
  exact (List.append_cancel_left hd).symm

theorem append_ne_append_right (s a b : String) (h : a.data ≠ b.data) : s ++ a ≠ s ++ b := by
  intro he
  apply h
  have hd : (s ++ a).data = (s ++ b).data := by rw [he]
  rw [String.data_append, String.data_append] at hd
  exact List.append_cancel_left hd

theorem tmpPath_ne_diskPath (d : String) : d ++ ".tmp" ≠ d :=
  fun he => (ne_append_of_data_ne_nil d ".tmp" (by decide)) he.symm

theorem metaPath_ne_diskPath (d : String) : d ++ ".meta" ≠ d :=
  fun he => (ne_append_of_data_ne_nil d ".meta" (by decide)) he.symm

theorem tmpPath_ne_metaPath (d : String) : d ++ ".tmp" ≠ d ++ ".meta" :=
  append_ne_append_right d ".tmp" ".meta" (by decide)

theorem metaTmpPath_ne_diskPath (d : String) : (d ++ ".meta") ++ ".tmp" ≠ d := by
  rw [String.append_assoc]
  exact fun he => (ne_append_of_data_ne_nil d (".meta" ++ ".tmp") (by decide)) he.symm

theorem metaTmpPath_ne_metaPath (d : String) : (d ++ ".meta") ++ ".tmp" ≠ d ++ ".meta" :=
  fun he => (ne_append_of_data_ne_nil (d ++ ".meta") ".tmp" (by decide)) he.symm

/-- localCache.write under a failing os.Create. -/
theorem localCacheWrite_createFail (cacheDir : String) (fs : FS) (actionID : List Nat)
    (body : String) (f : WriteFaults) (hc : f.createFails = true) :
    localCacheWrite cacheDir fs actionID body f = (.error "failed to create temp file", fs) := by
  unfold localCacheWrite
  rw [if_pos hc]

/-- localCache.write under a failing io.Copy: error, temp file removed. -/
theorem localCacheWrite_copyFail (cacheDir : String) (fs : FS) (actionID : List Nat)
    (body : String) (f : WriteFaults) (hc : f.createFails = false) (hcp : f.copyFails = true) :
    localCacheWrite cacheDir fs actionID body f =
      (.error "failed to write to temp file",
        fsRemove (fsWrite fs (actionIDToPath cacheDir actionID ++ ".tmp") "")
          (actionIDToPath cacheDir actionID ++ ".tmp")) := by
  unfold localCacheWrite
  rw [if_neg (by simp [hc]), if_pos hcp]

/-- localCache.write under a failing Close: error, temp file removed. -/
theorem localCacheWrite_closeFail (cacheDir : String) (fs : FS) (actionID : List Nat)
    (body : String) (f : WriteFaults) (hc : f.createFails = false) (hcp : f.copyFails = false)
    (hcl : f.closeFails = true) :
    localCacheWrite cacheDir fs actionID body f =
      (.error "failed to close temp file",
        fsRemove (fsWrite (fsWrite fs (actionIDToPath cacheDir actionID ++ ".tmp") "")
          (actionIDToPath cacheDir actionID ++ ".tmp") body)
          (actionIDToPath cacheDir actionID ++ ".tmp")) := by
  unfold localCacheWrite
  rw [if_neg (by simp [hc]), if_neg (by simp [hcp]), if_pos hcl]

/-- localCache.write with no failure: temp write, then rename. -/
theorem localCacheWrite_ok (cacheDir : String) (fs : FS) (actionID : List Nat) (body : String) :
    localCacheWrite cacheDir fs actionID body {} =
      (.ok (actionIDToPath cacheDir actionID),
        fsRename (fsWrite (fsWrite fs (actionIDToPath cacheDir actionID ++ ".tmp") "")
          (actionIDToPath cacheDir actionID ++ ".tmp") body)
          (actionIDToPath cacheDir actionID ++ ".tmp") (actionIDToPath cacheDir actionID)) := rfl

/-- writeMetadata with no failure: temp write, then rename. -/
theorem writeMetadata_ok (cacheDir : String) (fs : FS) (actionID : List Nat)
    (meta : localCacheMetadata) :
    writeMetadata cacheDir fs actionID meta {} =
      (.ok (), fsRename
        (fsWrite fs (metadataPath cacheDir actionID ++ ".tmp") (metadataContent meta))
        (metadataPath cacheDir actionID ++ ".tmp") (metadataPath cacheDir actionID)) := rfl

/-- After a rename of src onto dst, dst holds what src held. -/
theorem fsRead_fsRename_of_src (fs : FS) (src dst : String) (c : String)
    (h : fsRead fs src = some c) : fsRead (fsRename fs src dst) dst = some c := by
  unfold fsRename
  rw [h]
  exact fsRead_fsWrite_self _ _ _

theorem readMetadata_none (cacheDir : String) (fs : FS) (actionID : List Nat)
    (h : fsRead fs (metadataPath cacheDir actionID) = none) :
    readMetadata cacheDir fs actionID = .error .notExist := by
  unfold readMetadata
  split
  · rfl
  · rename_i data heq
    rw [h] at heq
    exact Option.noConfusion heq

theorem readMetadata_some (cacheDir : String) (fs : FS) (actionID : List Nat) (data : String)
    (h : fsRead fs (metadataPath cacheDir actionID) = some data) :
    readMetadata cacheDir fs actionID =
      (if (parseMetadataLines data).1 = "" then .error (.other "metadata missing outputID field")
       else
        match hexDecode (parseMetadataLines data).1.data with
        | none => .error (.other "failed to decode outputID")
        | some outputID =>
          .ok ⟨outputID, (parseMetadataLines data).2.1, (parseMetadataLines data).2.2⟩) := by
  unfold readMetadata
  split
  · rename_i heq
    rw [h] at heq
    exact Option.noConfusion heq
  · rename_i data2 heq
    rw [h] at heq
    rw [Option.some.inj heq]

theorem check_err (cacheDir : String) (fs : FS) (actionID : List Nat) (e : MetaErr)
    (h : readMetadata cacheDir fs actionID = .error e) :
    check cacheDir fs actionID = none := by
  unfold check
  split
  · rfl
  · rfl
  · rename_i m heq
    rw [h] at heq
    exact Except.noConfusion heq

theorem check_ok (cacheDir : String) (fs : FS) (actionID : List Nat) (m : localCacheMetadata)
    (h : readMetadata cacheDir fs actionID = .ok m) :
    check cacheDir fs actionID = some m := by
  unfold check
  split
  · rename_i heq
    rw [h] at heq
    exact Except.noConfusion heq
  · rename_i msg heq
    rw [h] at heq
    exact Except.noConfusion heq
  · rename_i m2 heq
    rw [h] at heq
    rw [Except.ok.inj heq]

theorem check_of_meta_absent (cacheDir : String) (fs : FS) (actionID : List Nat)
    (h : fsRead fs (metadataPath cacheDir actionID) = none) :
    check cacheDir fs actionID = none :=
  check_err cacheDir fs actionID .notExist (readMetadata_none cacheDir fs actionID h)

theorem hexEncodeBytes_ne_nil (bs : List Nat) (h : bs ≠ []) : hexEncodeBytes bs ≠ [] := by
  cases bs with
  | nil => exact absurd rfl h
  | cons b t => simp [hexEncodeBytes]

/-- Confirmation of C5: if the local store's body write fails at
creating, copying to, or closing the temp file — any point before the
final rename — write returns an error, the temp file is gone, nothing
appears at the final body path, and a subsequent Get on the key is a
clean miss. -/
theorem c5_interrupted_write (cacheDir : String) (fs : FS) (actionID : List Nat) (body : String)
    (f : WriteFaults)
    (hf : (f.createFails || f.copyFails || f.closeFails) = true)
    (ht : fsRead fs (actionIDToPath cacheDir actionID ++ ".tmp") = none)
    (hd : fsRead fs (actionIDToPath cacheDir actionID) = none)
    (hm : fsRead fs (metadataPath cacheDir actionID) = none) :
    (∃ e, (localCacheWrite cacheDir fs actionID body f).1 = .error e) ∧
    fsRead (localCacheWrite cacheDir fs actionID body f).2
      (actionIDToPath cacheDir actionID ++ ".tmp") = none ∧
    fsRead (localCacheWrite cacheDir fs actionID body f).2
      (actionIDToPath cacheDir actionID) = none ∧
    check cacheDir (localCacheWrite cacheDir fs actionID body f).2 actionID = none := by
  have htd := tmpPath_ne_diskPath (actionIDToPath cacheDir actionID)
  have htm : actionIDToPath cacheDir actionID ++ ".tmp" ≠ metadataPath cacheDir actionID :=
    tmpPath_ne_metaPath (actionIDToPath cacheDir actionID)
  cases hc : f.createFails with
  | true =>
    rw [localCacheWrite_createFail cacheDir fs actionID body f hc]
    exact ⟨⟨_, rfl⟩, ht, hd, check_of_meta_absent cacheDir fs actionID hm⟩
  | false =>
    cases hcp : f.copyFails with
    | true =>
      rw [localCacheWrite_copyFail cacheDir fs actionID body f hc hcp]
      refine ⟨⟨_, rfl⟩, fsRead_fsRemove_self _ _, ?_, ?_⟩
      · rw [fsRead_fsRemove_ne _ _ _ htd, fsRead_fsWrite_ne _ _ _ _ htd]
        exact hd
      · apply check_of_meta_absent
        rw [fsRead_fsRemove_ne _ _ _ htm, fsRead_fsWrite_ne _ _ _ _ htm]
        exact hm
    | false =>
      cases hcl : f.closeFails with
      | true =>
        rw [localCacheWrite_closeFail cacheDir fs actionID body f hc hcp hcl]
        refine ⟨⟨_, rfl⟩, fsRead_fsRemove_self _ _, ?_, ?_⟩
        · rw [fsRead_fsRemove_ne _ _ _ htd, fsRead_fsWrite_ne _ _ _ _ htd,
              fsRead_fsWrite_ne _ _ _ _ htd]
          exact hd
        · apply check_of_meta_absent
          rw [fsRead_fsRemove_ne _ _ _ htm, fsRead_fsWrite_ne _ _ _ _ htm,
              fsRead_fsWrite_ne _ _ _ _ htm]
          exact hm
      | false =>
        rw [hc, hcp, hcl] at hf
        simp at hf

/-- Witness for C5 at a concrete interrupted write. -/
theorem c5_interrupted_write_witness :
    (∃ e, (localCacheWrite "/c" [] [0] "B" ⟨false, true, false, false⟩).1 = .error e) ∧
    fsRead (localCacheWrite "/c" [] [0] "B" ⟨false, true, false, false⟩).2
      (actionIDToPath "/c" [0] ++ ".tmp") = none ∧
    fsRead (localCacheWrite "/c" [] [0] "B" ⟨false, true, false, false⟩).2
      (actionIDToPath "/c" [0]) = none ∧
    check "/c" (localCacheWrite "/c" [] [0] "B" ⟨false, true, false, false⟩).2 [0] = none :=
  c5_interrupted_write "/c" [] [0] "B" ⟨false, true, false, false⟩
    (by decide) rfl rfl rfl

/-- Body content survives a fault-free localCache.write. -/
theorem fsRead_after_localCacheWrite_ok (cacheDir : String) (fs : FS) (actionID : List Nat)
    (body : String) :
    fsRead (localCacheWrite cacheDir fs actionID body {}).2
      (actionIDToPath cacheDir actionID) = some body := by
  rw [localCacheWrite_ok]
  exact fsRead_fsRename_of_src _ _ _ _ (fsRead_fsWrite_self _ _ _)

/-- writeWithMetadata with a fault-free body write: the Put succeeds
with the disk path whatever the metadata write does. -/
theorem writeWithMetadata_ok_eq (cacheDir : String) (fs : FS) (actionID : List Nat)
    (body : String) (meta : localCacheMetadata) (mf : MetaFaults) :
    writeWithMetadata cacheDir fs actionID body meta {} mf =
      (.ok (actionIDToPath cacheDir actionID),
        (writeMetadata cacheDir (localCacheWrite cacheDir fs actionID body {}).2
          actionID meta mf).2) := by
  unfold writeWithMetadata
  split
  · rename_i e fs1 heq
    rw [localCacheWrite_ok] at heq
    simp at heq
  · rename_i diskPath fs1 heq
    rw [localCacheWrite_ok] at heq
    simp only [Prod.mk.injEq, Except.ok.injEq] at heq
    rw [← heq.1, ← heq.2, localCacheWrite_ok]

/-- Confirmation of C6: when the body write succeeds and the metadata
sidecar write fails (at WriteFile or at its rename), writeWithMetadata
still succeeds, returning the disk path and leaving the body cached;
the metadata failure is only logged. -/
theorem c6_metadata_failure (cacheDir : String) (fs : FS) (actionID : List Nat) (body : String)
    (meta : localCacheMetadata) (mf : MetaFaults)
    (hmf : (mf.writeFails || mf.renameFails) = true) :
    (writeWithMetadata cacheDir fs actionID body meta {} mf).1 =
      .ok (actionIDToPath cacheDir actionID) ∧
    fsRead (writeWithMetadata cacheDir fs actionID body meta {} mf).2
      (actionIDToPath cacheDir actionID) = some body := by
  have hbody := fsRead_after_localCacheWrite_ok cacheDir fs actionID body
  rw [writeWithMetadata_ok_eq]
  refine ⟨rfl, ?_⟩
  have hmd : metadataPath cacheDir actionID ++ ".tmp" ≠ actionIDToPath cacheDir actionID :=
    metaTmpPath_ne_diskPath (actionIDToPath cacheDir actionID)
  cases hw : mf.writeFails with
  | true =>
    unfold writeMetadata
    rw [if_pos hw]
    exact hbody
  | false =>
    cases hr : mf.renameFails with
    | true =>
      unfold writeMetadata
      rw [if_neg (by simp [hw]), if_pos hr]
      show fsRead (fsRemove (fsWrite _ _ _) _) _ = some body
      rw [fsRead_fsRemove_ne _ _ _ hmd, fsRead_fsWrite_ne _ _ _ _ hmd]
      exact hbody
    | false =>
      rw [hw, hr] at hmf
      simp at hmf

/-- Witness for C6 at a concrete metadata-write failure. -/
theorem c6_metadata_failure_witness :
    (writeWithMetadata "/c" [] [0] "B" ⟨[1], 1, 0⟩ {} ⟨true, false⟩).1 =
      .ok (actionIDToPath "/c" [0]) ∧
    fsRead (writeWithMetadata "/c" [] [0] "B" ⟨[1], 1, 0⟩ {} ⟨true, false⟩).2
      (actionIDToPath "/c" [0]) = some "B" :=
  c6_metadata_failure "/c" [] [0] "B" ⟨[1], 1, 0⟩ ⟨true, false⟩ (by decide)

/-- Confirmation of C7: check (the read path) never returns an error —
its return type carries no error — it reports a miss whenever the
sidecar is absent or readMetadata rejects it as malformed, and after a
successful metadata write it yields the stored OutputID, Size and
PutTime. -/
theorem c7_check_behavior (cacheDir : String) (fs : FS) (actionID : List Nat) :
    (fsRead fs (metadataPath cacheDir actionID) = none → check cacheDir fs actionID = none) ∧
    (∀ e, readMetadata cacheDir fs actionID = .error e → check cacheDir fs actionID = none) ∧
    (∀ meta : localCacheMetadata, meta.OutputID ≠ [] → (∀ b ∈ meta.OutputID, b < 256) →
      check cacheDir (writeMetadata cacheDir fs actionID meta {}).2 actionID = some meta) := by
  refine ⟨check_of_meta_absent cacheDir fs actionID, check_err cacheDir fs actionID, ?_⟩
  intro meta hne hb
  have hr : fsRead (writeMetadata cacheDir fs actionID meta {}).2
      (metadataPath cacheDir actionID) = some (metadataContent meta) := by
    rw [writeMetadata_ok]
    exact fsRead_fsRename_of_src _ _ _ _ (fsRead_fsWrite_self _ _ _)
  have hmr := readMetadata_some cacheDir (writeMetadata cacheDir fs actionID meta {}).2
    actionID (metadataContent meta) hr
  rw [parseMetadataLines_content meta hb] at hmr
  have hie : meta.OutputID.isEmpty = false := by
    simp [List.isEmpty_iff, hne]
  rw [hie] at hmr
  simp only [Bool.false_eq_true, if_false] at hmr
  have hse : ¬ (String.mk (hexEncodeBytes meta.OutputID) = "") := by
    intro he
    exact hexEncodeBytes_ne_nil meta.OutputID hne (congrArg String.data he)
  rw [if_neg hse] at hmr
  have hdec : hexDecode (String.mk (hexEncodeBytes meta.OutputID)).data = some meta.OutputID :=
    hexDecode_hexEncodeBytes meta.OutputID hb
  rw [hdec] at hmr
  exact check_ok _ _ _ _ hmr

/-- Witness for C7 at concrete inputs for all three conjuncts. -/
theorem c7_check_behavior_witness :
    check "/c" [] [0] = none ∧
    check "/c" [(metadataPath "/c" [0], "junk")] [0] = none ∧
    check "/c" (writeMetadata "/c" [] [0] ⟨[7], 3, 11⟩ {}).2 [0] = some ⟨[7], 3, 11⟩ :=
  ⟨(c7_check_behavior "/c" [] [0]).1 rfl,
   (c7_check_behavior "/c" [(metadataPath "/c" [0], "junk")] [0]).2.1
     (.other "metadata missing outputID field") (by decide),
   (c7_check_behavior "/c" [] [0]).2.2 ⟨[7], 3, 11⟩ (by decide) (by decide)⟩

/-- Confirmation of C10: writing metadata with an empty OutputID
produces a sidecar whose outputID field is empty, readMetadata rejects
it with "metadata missing outputID field", and check reports a miss —
such a Put can never produce a hit. -/
theorem c10_empty_outputID (cacheDir : String) (fs : FS) (actionID : List Nat)
    (meta : localCacheMetadata) (h : meta.OutputID = []) :
    (writeMetadata cacheDir fs actionID meta {}).1 = .ok () ∧
    readMetadata cacheDir (writeMetadata cacheDir fs actionID meta {}).2 actionID =
      .error (.other "metadata missing outputID field") ∧
    check cacheDir (writeMetadata cacheDir fs actionID meta {}).2 actionID = none := by
  have hr : fsRead (writeMetadata cacheDir fs actionID meta {}).2
      (metadataPath cacheDir actionID) = some (metadataContent meta) := by
    rw [writeMetadata_ok]
    exact fsRead_fsRename_of_src _ _ _ _ (fsRead_fsWrite_self _ _ _)
  have hmr := readMetadata_some cacheDir (writeMetadata cacheDir fs actionID meta {}).2
    actionID (metadataContent meta) hr
  rw [parseMetadataLines_content meta (by rw [h]; intro b hb; simp at hb)] at hmr
  rw [h] at hmr
  simp only [List.isEmpty_nil, if_true, if_pos rfl] at hmr
  refine ⟨by rw [writeMetadata_ok], hmr, check_err _ _ _ _ hmr⟩

/-- Witness for C10 at a concrete empty-OutputID write. -/
theorem c10_empty_outputID_witness :
    (writeMetadata "/c" [] [0] ⟨[], 3, 11⟩ {}).1 = .ok () ∧
    readMetadata "/c" (writeMetadata "/c" [] [0] ⟨[], 3, 11⟩ {}).2 [0] =
      .error (.other "metadata missing outputID field") ∧
    check "/c" (writeMetadata "/c" [] [0] ⟨[], 3, 11⟩ {}).2 [0] = none :=
  c10_empty_outputID "/c" [] [0] ⟨[], 3, 11⟩ rfl

/-- Confirmation of C8: both locking group variants pass the wrapped
function's value and error through unchanged; the MemLock's key mutex
is released when the function returns (the held set is restored),
error or not; acquisition is a total operation that cannot fail. -/
theorem c8_doWithLock {α : Type} (s : MemLock) (key : String)
    (fn : Unit → α × Option String) :
    noOpDoWithLock key fn = fn () ∧
    (memLockDoWithLock s key fn).1 = fn () ∧
    (memLockDoWithLock s key fn).2.held = s.held := by
  refine ⟨?_, rfl, ?_⟩
  · unfold noOpDoWithLock
    exact Prod.mk.eta
  · by_cases hm : key ∈ s.locks <;>
      simp [memLockDoWithLock, hm, List.erase_cons_head]

/-- Confirmation of C9: each Debug method returns exactly the wrapped
backend's values and error, and performs exactly one call to it, in
every outcome; only the diagnostic lines differ between outcomes. -/
theorem c9_debug_passthrough (b : Backend) (actionID outputID body : List Nat) (bodySize : Int) :
    ((debugPut b actionID outputID body bodySize).1 = b.put actionID outputID body bodySize ∧
      (debugPut b actionID outputID body bodySize).2.1 =
        [.put actionID outputID body bodySize]) ∧
    ((debugGet b actionID).1 = b.get actionID ∧
      (debugGet b actionID).2.1 = [.get actionID]) ∧
    ((debugClose b).1 = b.close ∧ (debugClose b).2.1 = [BackendCall.close]) ∧
    ((debugClear b).1 = b.clear ∧ (debugClear b).2.1 = [BackendCall.clear]) := by
  refine ⟨⟨?_, ?_⟩, ⟨?_, ?_⟩, ⟨?_, ?_⟩, ⟨?_, ?_⟩⟩
  · rcases hp : b.put actionID outputID body bodySize with ⟨dp, err⟩
    cases err <;> simp [debugPut, hp]
  · rcases hp : b.put actionID outputID body bodySize with ⟨dp, err⟩
    cases err <;> simp [debugPut, hp]
  · rcases hg : (b.get actionID).err with _ | e
    · by_cases hmiss : (b.get actionID).miss <;> simp [debugGet, hg, hmiss]
    · simp [debugGet, hg]
  · rcases hg : (b.get actionID).err with _ | e
    · by_cases hmiss : (b.get actionID).miss <;> simp [debugGet, hg, hmiss]
    · simp [debugGet, hg]
  · cases hc : b.close <;> simp [debugClose, hc]
  · cases hc : b.close <;> simp [debugClose, hc]
  · cases hc : b.clear <;> simp [debugClear, hc]
  · cases hc : b.clear <;> simp [debugClear, hc]

end GoBuildCache
